import Mathlib

/-!
Verification of the request-forwarding engine of the `gateway` service
(`gateway/src/main.rs`): an HTTP reverse proxy in front of a single backend.

The embedding is shallow: each handler (`health`, `api_login`,
`api_analysis_market`, `proxy_all`) is translated into pure Lean functions
over explicit request/response records.  Header maps are modelled as
association lists of (name, value) pairs in insertion order, with
case-insensitive name lookup, mirroring the `http::HeaderMap` semantics used
by axum and reqwest (`get` returns the first value for a name, `get_all`
returns all values in order, `insert` replaces all values for a name,
`append` adds a value at the end).  Bodies are modelled as opaque strings;
only emptiness and verbatim pass-through are observed.  HTTP status codes are
Nat, with `StatusCode::from_u16` valid exactly on 100..=999.
-/

namespace Gateway

/-- HTTP methods, as dispatched in `proxy_all`: the five standard verbs the
code matches on explicitly, plus the catch-all arm for any other method. -/
inductive Method where
  | GET
  | POST
  | PUT
  | PATCH
  | DELETE
  | other (s : String)
deriving DecidableEq

/-- Case normalisation used for header-name comparison: `http::HeaderName`
stores names lowercased, so lookups are case-insensitive. -/
def lowerName (s : String) : String := String.mk (s.data.map Char.toLower)

/-- All values associated with a header name, in insertion order
(`HeaderMap::get_all`). -/
def getAll (hs : List (String × String)) (name : String) : List String :=
  (hs.filter (fun p => lowerName p.1 == lowerName name)).map Prod.snd

/-- The first value associated with a header name, if any
(`HeaderMap::get`). -/
def headerGet (hs : List (String × String)) (name : String) : Option String :=
  (getAll hs name).head?

/-- Outbound request built by a forwarding handler: method, full URL,
forwarded headers, optional body. -/
structure OutboundRequest where
  method : Method
  url : String
  headers : List (String × String)
  body : Option String
deriving DecidableEq

/-- A backend HTTP response as observed by the handlers: status code,
response headers, body bytes (already read). -/
structure BackendResponse where
  status : Nat
  headers : List (String × String)
  body : String
deriving DecidableEq

/-- The response the gateway returns to the original caller. -/
structure GatewayResponse where
  status : Nat
  headers : List (String × String)
  body : String
deriving DecidableEq

/-- `proxy_all` URL construction:
`format!("\x7b\x7d\x7b\x7d", state.backend_base, uri.path())`, then if a query
string is present, push `?` and the query verbatim. -/
def buildUrl (base path : String) (query : Option String) : String :=
  let url := base ++ path
  match query with
  | some q => url ++ "?" ++ q
  | none => url

/-- One allow-listed header: `if let Some(v) = headers.get(n) then
req = req.header(n, v)`.  Produces the forwarded entry for name `n` (the
first inbound occurrence), or nothing. -/
def pick (hs : List (String × String)) (n : String) : List (String × String) :=
  match headerGet hs n with
  | some v => [(n, v)]
  | none => []

/-- The four `headers.get`/`req.header` steps of `proxy_all`, in source
order: authorization, content-type, cookie, x-csrf-token. -/
def forwardHeaders (hs : List (String × String)) : List (String × String) :=
  pick hs "authorization" ++ pick hs "content-type" ++
    pick hs "cookie" ++ pick hs "x-csrf-token"

/-- The inbound header names `proxy_all` forwards. -/
def allowedHeaderNames : List String :=
  ["authorization", "content-type", "cookie", "x-csrf-token"]

/-- Body attachment in `proxy_all`: `if method == Method::GET ||
body.is_empty() \x7b req.send() \x7d else \x7b req.body(body).send() \x7d`. -/
def outboundBody (method : Method) (body : String) : Option String :=
  if method = Method.GET ∨ body = "" then none else some body

/-- The outbound request `proxy_all` builds from an inbound request. -/
def proxyAllRequest (base : String) (method : Method) (path : String)
    (query : Option String) (hs : List (String × String)) (body : String) :
    OutboundRequest :=
  { method := method
    url := buildUrl base path query
    headers := forwardHeaders hs
    body := outboundBody method body }

/-- `StatusCode::from_u16`: valid exactly for codes in 100..=999. -/
def statusFromU16 (c : Nat) : Option Nat :=
  if 100 ≤ c ∧ c ≤ 999 then some c else none

/-- `StatusCode::from_u16(r.status().as_u16()).unwrap_or(StatusCode::BAD_GATEWAY)`. -/
def translateStatus (c : Nat) : Nat :=
  (statusFromU16 c).getD 502

/-- Headers of `(status, body: Bytes).into_response()` after the optional
`insert(CONTENT_TYPE, ct)` and `insert(LOCATION, loc)`: axum's Bytes body
sets a default `application/octet-stream` content type, `insert` replaces
the value for an existing name and adds absent names at the end. -/
def baseHeaders (ct loc : Option String) : List (String × String) :=
  [("content-type", ct.getD "application/octet-stream")] ++
    (match loc with
     | some l => [("location", l)]
     | none => [])

/-- Response-header reconstruction in `proxy_all`'s `Ok` branch: content-type
and location are cloned and inserted if present, then every `set-cookie`
value is appended in order. -/
def translateHeaders (bh : List (String × String)) : List (String × String) :=
  baseHeaders (headerGet bh "content-type") (headerGet bh "location") ++
    (getAll bh "set-cookie").map (fun v => ("set-cookie", v))

/-- `proxy_all`'s `Ok(r)` branch. -/
def proxyAllOk (r : BackendResponse) : GatewayResponse :=
  { status := translateStatus r.status
    headers := translateHeaders r.headers
    body := r.body }

/-- The error body shape asserted by the specification for backend transport
failures: status 502 with
`\x7b"error":"backend_error","message":"<diagnostic>"\x7d`, the diagnostic
being the transport error's debug representation. -/
def specErrorBody (diag : String) : String :=
  "\x7b\"error\":\"backend_error\",\"message\":\"" ++ diag ++ "\"\x7d"

/-- `proxy_all`'s `Err(e)` branch: 502 with the debug representation of the
error wrapped in double quotes inside the JSON template; a `(StatusCode,
String)` axum response carries a `text/plain; charset=utf-8` content type. -/
def proxyAllErr (diag : String) : GatewayResponse :=
  { status := 502
    headers := [("content-type", "text/plain; charset=utf-8")]
    body := "\x7b\"error\":\"backend_error\",\"message\":\"" ++ diag ++ "\"\x7d" }

/-- `proxy_all`'s match on the result of the single `send()`: transport
errors are modelled by the error's debug representation. -/
def proxy_all (r : Except String BackendResponse) : GatewayResponse :=
  match r with
  | .ok resp => proxyAllOk resp
  | .error diag => proxyAllErr diag

/-- Response-header reconstruction in `api_login`'s `Ok` branch: only
content-type is cloned and inserted (over the Bytes-body default). -/
def loginTranslateHeaders (bh : List (String × String)) : List (String × String) :=
  [("content-type", (headerGet bh "content-type").getD "application/octet-stream")]

/-- `api_login`'s `Ok(r)` branch. -/
def loginOk (r : BackendResponse) : GatewayResponse :=
  { status := translateStatus r.status
    headers := loginTranslateHeaders r.headers
    body := r.body }

/-- `api_login`'s `Err(e)` branch: note the format string places the debug
representation directly after `"message":`, without surrounding quotes. -/
def loginErr (diag : String) : GatewayResponse :=
  { status := 502
    headers := [("content-type", "text/plain; charset=utf-8")]
    body := "\x7b\"error\":\"backend_error\",\"message\":" ++ diag ++ "\x7d" }

/-- Response-header reconstruction in `api_analysis_market`'s `Ok` branch:
only content-type is cloned and inserted. -/
def marketTranslateHeaders (bh : List (String × String)) : List (String × String) :=
  [("content-type", (headerGet bh "content-type").getD "application/octet-stream")]

/-- `api_analysis_market`'s `Ok(r)` branch. -/
def marketOk (r : BackendResponse) : GatewayResponse :=
  { status := translateStatus r.status
    headers := marketTranslateHeaders r.headers
    body := r.body }

/-- `api_analysis_market`'s `Err(e)` branch: same format string as
`api_login`, debug representation unquoted after `"message":`. -/
def marketErr (diag : String) : GatewayResponse :=
  { status := 502
    headers := [("content-type", "text/plain; charset=utf-8")]
    body := "\x7b\"error\":\"backend_error\",\"message\":" ++ diag ++ "\x7d" }

/-- The outbound request `api_analysis_market` builds: POST to the fixed
backend path, forwarding only an inbound content-type, raw body attached. -/
def marketRequest (base : String) (hs : List (String × String)) (body : String) :
    OutboundRequest :=
  { method := Method.POST
    url := base ++ "/api/analysis/market"
    headers := pick hs "content-type"
    body := some body }

/-- What a handler does before any backend exchange: answer directly with no
backend call, refuse the request before the handler body runs (an extractor
rejection, a framework 4xx with no backend call), or issue exactly one
outbound request. -/
inductive HandlerStep where
  | respond (status : Nat) (body : String)
  | reject
  | callBackend (req : OutboundRequest)
deriving DecidableEq

/-- The `health` handler: `(StatusCode::OK, "\x7b\"status\":\"ok\"\x7d")`,
a constant answer issuing no backend request. -/
def healthStep : HandlerStep :=
  HandlerStep.respond 200 "\x7b\"status\":\"ok\"\x7d"

/-- The routes registered on the axum `Router` in `main`, in matching
priority: `/health` GET, `/api/login` POST, `/api/analysis/market` POST,
`/` GET (explicit root handler), and the `/*path` fallback for everything
else with any method. -/
inductive Route where
  | health
  | login
  | market
  | rootGet
  | proxyFallback
  | methodNotAllowed
deriving DecidableEq

/-- Route dispatch for an inbound (method, path) pair, per the `Router`
construction in `main`. -/
def routeOf (m : Method) (path : String) : Route :=
  if path = "/health" then
    (if m = Method.GET then Route.health else Route.methodNotAllowed)
  else if path = "/api/login" then
    (if m = Method.POST then Route.login else Route.methodNotAllowed)
  else if path = "/api/analysis/market" then
    (if m = Method.POST then Route.market else Route.methodNotAllowed)
  else if path = "/" then
    (if m = Method.GET then Route.rootGet else Route.methodNotAllowed)
  else Route.proxyFallback

end Gateway

namespace Gateway

/-! ### JSON model for the login route

`api_login` uses axum's `Json<LoginPayload>` extractor: the request must
carry a content-type header whose mime essence denotes JSON (otherwise the
extractor refuses it with 415 before touching the body), then the inbound
body is parsed as JSON and deserialized into
`LoginPayload \x7b email, password \x7d` (both `String`); on any failure
the request is rejected before any backend call.  On success the payload is
re-serialized with serde_json and POSTed to
`backend_base ++ "/api/login"`.  The parser below models serde_json's
grammar (RFC 8259): values are null, booleans, numbers (kept as raw text),
strings with escape sequences (surrogate pairs combined), arrays and
objects; stray control characters and lone surrogates in strings are
rejected. -/

/-- The JSON values serde_json parses. -/
inductive Json where
  | null
  | bool (b : Bool)
  | num (raw : String)
  | str (s : String)
  | arr (xs : List Json)
  | obj (fields : List (String × Json))

/-- `LoginPayload`: the shape `api_login` validates. -/
structure LoginPayload where
  email : String
  password : String
deriving DecidableEq

/-- An opening curly brace character. -/
def lbrace : Char := Char.ofNat 123

/-- A closing curly brace character. -/
def rbrace : Char := Char.ofNat 125

/-- JSON insignificant whitespace. -/
def isWs (c : Char) : Bool :=
  c = ' ' ∨ c = '\t' ∨ c = '\n' ∨ c = '\r'

/-- Drop leading JSON whitespace. -/
def skipWs : List Char → List Char
  | [] => []
  | c :: cs => if isWs c then skipWs cs else c :: cs

/-- Value of a hex digit, if any. -/
def hexVal (c : Char) : Option Nat :=
  if '0' ≤ c ∧ c ≤ '9' then some (c.toNat - '0'.toNat)
  else if 'a' ≤ c ∧ c ≤ 'f' then some (c.toNat - 'a'.toNat + 10)
  else if 'A' ≤ c ∧ c ≤ 'F' then some (c.toNat - 'A'.toNat + 10)
  else none

/-- Single-character JSON escapes. -/
def escChar (c : Char) : Option Char :=
  if c = '"' then some '"'
  else if c = '\\' then some '\\'
  else if c = '/' then some '/'
  else if c = 'n' then some '\n'
  else if c = 't' then some '\t'
  else if c = 'r' then some '\r'
  else if c = 'b' then some (Char.ofNat 8)
  else if c = 'f' then some (Char.ofNat 12)
  else none

/-- Parse the rest of a JSON string literal (after the opening quote),
returning its characters and the remaining input.  Surrogate handling
follows serde_json: a `\u` escape in 0xDC00..0xDFFF (a leading low
surrogate) is an error; one in 0xD800..0xDBFF must be followed literally by
`\u` and a low surrogate, and the pair combines into one supplementary
character; only lone surrogates are rejected.  Fueled: every step consumes
input, so fuel = input length suffices. -/
def strBody (fuel : Nat) (cs : List Char) : Option (List Char × List Char) :=
  match fuel, cs with
  | 0, _ => none
  | _, [] => none
  | Nat.succ f, c :: rest =>
    if c = '"' then some ([], rest)
    else if c = '\\' then
      match rest with
      | [] => none
      | e :: rest2 =>
        if e = 'u' then
          match rest2 with
          | h1 :: h2 :: h3 :: h4 :: rest3 =>
            match hexVal h1, hexVal h2, hexVal h3, hexVal h4 with
            | some a, some b, some c2, some d =>
              let n := ((a * 16 + b) * 16 + c2) * 16 + d
              if 0xDC00 ≤ n ∧ n ≤ 0xDFFF then none
              else if 0xD800 ≤ n ∧ n ≤ 0xDBFF then
                match rest3 with
                | '\\' :: 'u' :: h5 :: h6 :: h7 :: h8 :: rest4 =>
                  match hexVal h5, hexVal h6, hexVal h7, hexVal h8 with
                  | some a2, some b2, some c3, some d2 =>
                    let n2 := ((a2 * 16 + b2) * 16 + c3) * 16 + d2
                    if 0xDC00 ≤ n2 ∧ n2 ≤ 0xDFFF then
                      match strBody f rest4 with
                      | some (chars, rem) =>
                        some (Char.ofNat
                          (0x10000 + (n - 0xD800) * 0x400 + (n2 - 0xDC00)) ::
                            chars, rem)
                      | none => none
                    else none
                  | _, _, _, _ => none
                | _ => none
              else
                match strBody f rest3 with
                | some (chars, rem) => some (Char.ofNat n :: chars, rem)
                | none => none
            | _, _, _, _ => none
          | _ => none
        else
          match escChar e with
          | some c2 =>
            match strBody f rest2 with
            | some (chars, rem) => some (c2 :: chars, rem)
            | none => none
          | none => none
    else if c.toNat < 0x20 then none
    else
      match strBody f rest with
      | some (chars, rem) => some (c :: chars, rem)
      | none => none

/-- Take the longest leading run of decimal digits. -/
def takeDigits : List Char → List Char × List Char
  | [] => ([], [])
  | c :: cs =>
    if c.isDigit then
      let r := takeDigits cs
      (c :: r.1, r.2)
    else ([], c :: cs)

/-- Integer part of a JSON number: `0`, or a nonzero digit followed by
digits (no leading zeros). -/
def intPart : List Char → Option (List Char × List Char)
  | [] => none
  | c :: cs =>
    if c = '0' then some ([c], cs)
    else if c.isDigit then
      let r := takeDigits cs
      some (c :: r.1, r.2)
    else none

/-- Optional fraction part `.digits`. -/
def fracPart : List Char → Option (List Char × List Char)
  | '.' :: cs =>
    let r := takeDigits cs
    if r.1.isEmpty then none else some ('.' :: r.1, r.2)
  | cs => some ([], cs)

/-- Optional exponent part `(e|E)(+|-)?digits`. -/
def expPart : List Char → Option (List Char × List Char)
  | [] => some ([], [])
  | c :: cs =>
    if c = 'e' ∨ c = 'E' then
      let sgn : List Char × List Char :=
        match cs with
        | s :: r => if s = '+' ∨ s = '-' then ([s], r) else ([], s :: r)
        | [] => ([], [])
      let r := takeDigits sgn.2
      if r.1.isEmpty then none else some (c :: (sgn.1 ++ r.1), r.2)
    else some ([], c :: cs)

/-- Parse a JSON number, keeping its raw text. -/
def numLit (cs : List Char) : Option (String × List Char) :=
  let sgn : List Char × List Char :=
    match cs with
    | '-' :: r => (['-'], r)
    | _ => ([], cs)
  match intPart sgn.2 with
  | none => none
  | some (ip, cs2) =>
    match fracPart cs2 with
    | none => none
    | some (fp, cs3) =>
      match expPart cs3 with
      | none => none
      | some (ep, cs4) => some (String.mk (sgn.1 ++ ip ++ fp ++ ep), cs4)

/-- Match an expected literal character sequence. -/
def stripToken : List Char → List Char → Option (List Char)
  | [], cs => some cs
  | _ :: _, [] => none
  | e :: es, c :: cs => if c = e then stripToken es cs else none

mutual

/-- Parse one JSON value (leading whitespace allowed). -/
def jsonValue : Nat → List Char → Option (Json × List Char)
  | 0, _ => none
  | Nat.succ f, cs =>
    match skipWs cs with
    | [] => none
    | c :: rest =>
      if c = '"' then
        match strBody (rest.length + 1) rest with
        | some (chars, rem) => some (Json.str (String.mk chars), rem)
        | none => none
      else if c = lbrace then
        match skipWs rest with
        | [] => none
        | c2 :: cs2 =>
          if c2 = rbrace then some (Json.obj [], cs2)
          else
            match jsonMembers f (c2 :: cs2) with
            | some (fields, rem) => some (Json.obj fields, rem)
            | none => none
      else if c = '[' then
        match skipWs rest with
        | ']' :: cs2 => some (Json.arr [], cs2)
        | cs2 =>
          match jsonElements f cs2 with
          | some (xs, rem) => some (Json.arr xs, rem)
          | none => none
      else if c = 't' then
        match stripToken ['r', 'u', 'e'] rest with
        | some rem => some (Json.bool true, rem)
        | none => none
      else if c = 'f' then
        match stripToken ['a', 'l', 's', 'e'] rest with
        | some rem => some (Json.bool false, rem)
        | none => none
      else if c = 'n' then
        match stripToken ['u', 'l', 'l'] rest with
        | some rem => some (Json.null, rem)
        | none => none
      else
        match numLit (c :: rest) with
        | some (raw, rem) => some (Json.num raw, rem)
        | none => none

/-- Parse the nonempty member list of a JSON object, consuming the closing
brace. -/
def jsonMembers : Nat → List Char → Option (List (String × Json) × List Char)
  | 0, _ => none
  | Nat.succ f, cs =>
    match skipWs cs with
    | '"' :: rest =>
      match strBody (rest.length + 1) rest with
      | none => none
      | some (kchars, cs2) =>
        match skipWs cs2 with
        | ':' :: cs3 =>
          match jsonValue f cs3 with
          | none => none
          | some (v, cs4) =>
            match skipWs cs4 with
            | [] => none
            | c :: cs5 =>
              if c = ',' then
                match jsonMembers f cs5 with
                | some (fields, rem) => some ((String.mk kchars, v) :: fields, rem)
                | none => none
              else if c = rbrace then some ([(String.mk kchars, v)], cs5)
              else none
        | _ => none
    | _ => none

/-- Parse the nonempty element list of a JSON array, consuming the closing
bracket. -/
def jsonElements : Nat → List Char → Option (List Json × List Char)
  | 0, _ => none
  | Nat.succ f, cs =>
    match jsonValue f cs with
    | none => none
    | some (v, cs2) =>
      match skipWs cs2 with
      | ',' :: cs3 =>
        match jsonElements f cs3 with
        | some (xs, rem) => some (v :: xs, rem)
        | none => none
      | ']' :: cs3 => some ([v], cs3)
      | _ => none

end

/-- Parse a complete JSON document: one value, then only whitespace. -/
def parseJsonString (s : String) : Option Json :=
  match jsonValue (s.length + 1) s.data with
  | some (j, rem) => if (skipWs rem).isEmpty then some j else none
  | none => none

/-- serde's derived `Deserialize` for `LoginPayload` over an object's
fields: `email` and `password` must each appear exactly once with a string
value (a repeat is a duplicate-field error, a non-string value a type
error); unknown fields are ignored. -/
def loginFields : List (String × Json) → Option String → Option String →
    Option LoginPayload
  | [], some e, some p => some { email := e, password := p }
  | [], _, _ => none
  | (k, v) :: rest, e?, p? =>
    if k = "email" then
      match e?, v with
      | none, Json.str s => loginFields rest (some s) p?
      | _, _ => none
    else if k = "password" then
      match p?, v with
      | none, Json.str s => loginFields rest e? (some s)
      | _, _ => none
    else loginFields rest e? p?

/-- `LoginPayload` deserialization: requires a JSON object. -/
def deserializeLogin : Json → Option LoginPayload
  | Json.obj fields => loginFields fields none none
  | _ => none

/-- The full extractor: parse the raw body, then deserialize. -/
def loginForm (rawBody : String) : Option LoginPayload :=
  (parseJsonString rawBody).bind deserializeLogin

/-- serde_json string escaping for one character. -/
def escapeJsonChar (c : Char) : String :=
  if c = '"' then "\\\""
  else if c = '\\' then "\\\\"
  else if c.toNat < 0x20 then
    if c = '\n' then "\\n"
    else if c = '\t' then "\\t"
    else if c = '\r' then "\\r"
    else if c.toNat = 8 then "\\b"
    else if c.toNat = 12 then "\\f"
    else
      "\\u00" ++ String.singleton (Nat.digitChar (c.toNat / 16)) ++
        String.singleton (Nat.digitChar (c.toNat % 16))
  else String.singleton c

/-- serde_json string escaping. -/
def escapeJson (s : String) : String :=
  String.join (s.data.map escapeJsonChar)

/-- serde_json serialization of `LoginPayload` (`.json(&payload)`): fields
in declaration order. -/
def serializeLogin (p : LoginPayload) : String :=
  "\x7b\"email\":\"" ++ escapeJson p.email ++ "\",\"password\":\"" ++
    escapeJson p.password ++ "\"\x7d"

/-- The mime-essence test of axum's `json_content_type` gate: the header
value up to the first `;` (optional whitespace before the parameter
separator dropped, ASCII-lowercased, parameters not further validated) must
be `application/json`, or `application/<subtype>` with a `+json` suffix
(`mime.type_() == "application" && (mime.subtype() == "json" ||
mime.suffix() == Some("json"))`). -/
def contentTypeIsJson (v : String) : Bool :=
  let essence := (v.data.takeWhile (fun c => c ≠ ';')).map Char.toLower
  let essence :=
    (essence.reverse.dropWhile (fun c => c = ' ' ∨ c = '\t')).reverse
  match stripToken ("application/".data) essence with
  | none => false
  | some sub => sub = "json".data ∨ sub.reverse.take 5 = ['n', 'o', 's', 'j', '+']

/-- The `Json` extractor's content-type requirement: the request must carry
a content-type header whose mime essence denotes JSON; a request without
one is refused with 415 before the body is deserialized. -/
def jsonContentType (hs : List (String × String)) : Bool :=
  match headerGet hs "content-type" with
  | some v => contentTypeIsJson v
  | none => false

/-- What `api_login` does with an inbound request before the backend
exchange: the `Json<LoginPayload>` extractor first requires a JSON
content-type, then parses and deserializes the body; any failure rejects
the request (a framework 4xx, no backend call), and on success the handler
issues the single POST to the fixed backend login path with the
re-serialized payload. -/
def api_login (base : String) (hs : List (String × String))
    (rawBody : String) : HandlerStep :=
  if jsonContentType hs then
    match loginForm rawBody with
    | none => HandlerStep.reject
    | some p =>
      HandlerStep.callBackend
        { method := Method.POST
          url := base ++ "/api/login"
          headers := [("content-type", "application/json")]
          body := some (serializeLogin p) }
  else HandlerStep.reject

end Gateway

namespace Gateway

/-! ### Header-map lemmas -/

theorem getAll_congr (hs : List (String × String)) (m n : String)
    (h : lowerName m = lowerName n) : getAll hs m = getAll hs n := by
  simp [getAll, h]

theorem headerGet_congr (hs : List (String × String)) (m n : String)
    (h : lowerName m = lowerName n) : headerGet hs m = headerGet hs n := by
  simp [headerGet, getAll_congr hs m n h]

theorem getAll_append (a b : List (String × String)) (n : String) :
    getAll (a ++ b) n = getAll a n ++ getAll b n := by
  simp [getAll, List.filter_append]

theorem getAll_pick (hs : List (String × String)) (n m : String) :
    getAll (pick hs n) m =
      if lowerName n = lowerName m then (headerGet hs n).toList else [] := by
  unfold pick
  cases h : headerGet hs n with
  | none =>
    simp [getAll]
  | some v =>
    by_cases hc : lowerName n = lowerName m
    · simp [getAll, List.filter_cons, beq_iff_eq, hc]
    · simp [getAll, List.filter_cons, beq_iff_eq, hc]

theorem headerGet_pick (hs : List (String × String)) (n m : String) :
    headerGet (pick hs n) m =
      if lowerName n = lowerName m then headerGet hs n else none := by
  rw [headerGet, getAll_pick]
  by_cases hc : lowerName n = lowerName m
  · cases headerGet hs n <;> simp [hc]
  · simp [hc]

theorem lowerName_authorization : lowerName "authorization" = "authorization" := by
  decide

theorem lowerName_contentType : lowerName "content-type" = "content-type" := by
  decide

theorem lowerName_cookie : lowerName "cookie" = "cookie" := by
  decide

theorem lowerName_csrf : lowerName "x-csrf-token" = "x-csrf-token" := by
  decide

theorem getAll_forwardHeaders (hs : List (String × String)) (name : String) :
    getAll (forwardHeaders hs) name =
      if lowerName name ∈ allowedHeaderNames then (headerGet hs name).toList
      else [] := by
  rw [forwardHeaders]
  simp only [getAll_append, getAll_pick, lowerName_authorization,
    lowerName_contentType, lowerName_cookie, lowerName_csrf]
  by_cases h1 : "authorization" = lowerName name
  · have hg := headerGet_congr hs "authorization" name
      (by rw [lowerName_authorization]; exact h1)
    rw [← h1]
    simp [allowedHeaderNames, hg]
  · by_cases h2 : "content-type" = lowerName name
    · have hg := headerGet_congr hs "content-type" name
        (by rw [lowerName_contentType]; exact h2)
      rw [← h2]
      simp [allowedHeaderNames, hg]
    · by_cases h3 : "cookie" = lowerName name
      · have hg := headerGet_congr hs "cookie" name
          (by rw [lowerName_cookie]; exact h3)
        rw [← h3]
        simp [allowedHeaderNames, hg]
      · by_cases h4 : "x-csrf-token" = lowerName name
        · have hg := headerGet_congr hs "x-csrf-token" name
            (by rw [lowerName_csrf]; exact h4)
          rw [← h4]
          simp [allowedHeaderNames, hg]
        · have hmem : lowerName name ∉ allowedHeaderNames := by
            simp only [allowedHeaderNames, List.mem_cons, List.not_mem_nil,
              or_false]
            push_neg
            exact ⟨fun h => h1 h.symm, fun h => h2 h.symm,
              fun h => h3 h.symm, fun h => h4 h.symm⟩
          simp [h1, h2, h3, h4, hmem]

theorem headerGet_forwardHeaders (hs : List (String × String)) (name : String) :
    headerGet (forwardHeaders hs) name =
      if lowerName name ∈ allowedHeaderNames then headerGet hs name
      else none := by
  rw [headerGet, getAll_forwardHeaders]
  by_cases h : lowerName name ∈ allowedHeaderNames
  · cases headerGet hs name <;> simp [h]
  · simp [h]

end Gateway

namespace Gateway

theorem getAll_nil (n : String) : getAll [] n = [] := rfl

theorem getAll_cons (k v : String) (hs : List (String × String)) (n : String) :
    getAll ((k, v) :: hs) n =
      if lowerName k == lowerName n then v :: getAll hs n else getAll hs n := by
  cases hb : (lowerName k == lowerName n) <;>
    simp [getAll, List.filter_cons, hb]

theorem headerGet_singleton (n v m : String) :
    headerGet [(n, v)] m = if lowerName n = lowerName m then some v else none := by
  by_cases hc : lowerName n = lowerName m
  · simp [headerGet, getAll_cons, getAll_nil, beq_iff_eq, hc]
  · simp [headerGet, getAll_cons, getAll_nil, beq_iff_eq, hc]

theorem getAll_baseHeaders_setCookie (ct loc : Option String) :
    getAll (baseHeaders ct loc) "set-cookie" = [] := by
  have h1 : (lowerName "content-type" == lowerName "set-cookie") = false := by
    decide
  have h2 : (lowerName "location" == lowerName "set-cookie") = false := by
    decide
  cases loc <;> simp [baseHeaders, getAll_cons, getAll_nil, h1, h2]

theorem getAll_setCookieList (L : List String) :
    getAll (L.map (fun v => ("set-cookie", v))) "set-cookie" = L := by
  have h : (lowerName "set-cookie" == lowerName "set-cookie") = true := by
    decide
  induction L with
  | nil => rfl
  | cons a t ih => simp [List.map_cons, getAll_cons, h, ih]

theorem translateStatus_eq (c : Nat) :
    translateStatus c = if 100 ≤ c ∧ c ≤ 999 then c else 502 := by
  unfold translateStatus statusFromU16
  split <;> rfl

/-! ### Claims -/

/-- C1: on the generic forwarding route, exactly the inbound headers named
authorization, content-type, cookie and x-csrf-token (matched
case-insensitively) are forwarded to the backend when present, with their
inbound value, and every other inbound header is absent from the outbound
request. -/
theorem allowlist_header_forwarding (base : String) (m : Method) (path : String)
    (query : Option String) (hs : List (String × String)) (body name : String) :
    headerGet (proxyAllRequest base m path query hs body).headers name =
      if lowerName name ∈ allowedHeaderNames then headerGet hs name
      else none := by
  simpa [proxyAllRequest] using headerGet_forwardHeaders hs name

/-- C2: on the generic forwarding route, the outbound URL is the backend
base concatenated with the inbound path, followed by `?` and the query
string verbatim exactly when a query string is present, with no
re-encoding of either part. -/
theorem outbound_url_exact (base : String) (m : Method) (path q : String)
    (hs : List (String × String)) (body : String) :
    (proxyAllRequest base m path (some q) hs body).url = base ++ path ++ "?" ++ q ∧
    (proxyAllRequest base m path none hs body).url = base ++ path := by
  exact ⟨rfl, rfl⟩

/-- C3: on the generic forwarding route, the outbound request carries the
inbound body exactly when the body is non-empty and the method is not GET;
a GET request with a non-empty body is sent with no body. -/
theorem body_attachment_policy (base : String) (m : Method) (path : String)
    (query : Option String) (hs : List (String × String)) (body : String) :
    ((proxyAllRequest base m path query hs body).body = some body ↔
      body ≠ "" ∧ m ≠ Method.GET) ∧
    (proxyAllRequest base Method.GET path query hs body).body = none := by
  constructor
  · simp only [proxyAllRequest, outboundBody]
    by_cases hg : m = Method.GET
    · subst hg; simp
    · by_cases hb : body = ""
      · subst hb; simp
      · simp [hg, hb]
  · simp [proxyAllRequest, outboundBody]

/-- C4: on the generic forwarding route, every occurrence of `set-cookie`
in the backend response reappears in the outbound response, with identical
values in the same order (and no occurrence is added). -/
theorem set_cookie_multi_preserved (r : BackendResponse) :
    getAll (proxyAllOk r).headers "set-cookie" = getAll r.headers "set-cookie" := by
  simp [proxyAllOk, translateHeaders, getAll_append,
    getAll_baseHeaders_setCookie, getAll_setCookieList]

/-- C5 counterexample: on the login and market-analysis routes the error
body does not match the spec's quoted shape: at diagnostic `e` the body is
`\x7b"error":"backend_error","message":e\x7d`, not
`\x7b"error":"backend_error","message":"e"\x7d`; only the status 502 part
holds there. -/
theorem error_body_quote_counterexample :
    (loginErr "e").status = 502 ∧ (marketErr "e").status = 502 ∧
    (loginErr "e").body ≠ specErrorBody "e" ∧
    (marketErr "e").body ≠ specErrorBody "e" := by
  refine ⟨rfl, rfl, ?_, ?_⟩ <;> decide

/-- C5 amended: on a transport failure every route answers 502 and the
generic route's body is exactly
`\x7b"error":"backend_error","message":"<diagnostic>"\x7d`; the login and
market-analysis routes place the diagnostic after `"message":` without
surrounding quotes, and the two are byte-identical to each other. -/
theorem backend_error_responses (diag : String) :
    proxy_all (Except.error diag) =
      { status := 502
        headers := [("content-type", "text/plain; charset=utf-8")]
        body := specErrorBody diag } ∧
    loginErr diag =
      { status := 502
        headers := [("content-type", "text/plain; charset=utf-8")]
        body := "\x7b\"error\":\"backend_error\",\"message\":" ++ diag ++ "\x7d" } ∧
    marketErr diag = loginErr diag := by
  exact ⟨rfl, rfl, rfl⟩

/-- C6 counterexample: the market-analysis route does not apply the generic
translate step: a backend response carrying a `set-cookie` and a `location`
header loses both on the market route, while the generic route preserves
them. -/
theorem market_response_headers_counterexample :
    getAll (marketOk ⟨200, [("set-cookie", "a=1"), ("location", "/next")], "b"⟩).headers
        "set-cookie" = [] ∧
    headerGet (marketOk ⟨200, [("set-cookie", "a=1"), ("location", "/next")], "b"⟩).headers
        "location" = none ∧
    getAll (proxyAllOk ⟨200, [("set-cookie", "a=1"), ("location", "/next")], "b"⟩).headers
        "set-cookie" = ["a=1"] ∧
    headerGet (proxyAllOk ⟨200, [("set-cookie", "a=1"), ("location", "/next")], "b"⟩).headers
        "location" = some "/next" := by
  decide

/-- C6 amended: on the market-analysis route the only backend response
header that survives translation is content-type (defaulting to
`application/octet-stream` when the backend sent none); location and every
`set-cookie` occurrence are dropped, and the status is translated as on the
generic route. -/
theorem market_response_content_type_only (r : BackendResponse) (name : String) :
    (marketOk r).status = translateStatus r.status ∧
    headerGet (marketOk r).headers name =
      (if lowerName name = "content-type" then
        some ((headerGet r.headers "content-type").getD "application/octet-stream")
      else none) := by
  refine ⟨rfl, ?_⟩
  have hh : (marketOk r).headers =
      [("content-type",
        (headerGet r.headers "content-type").getD "application/octet-stream")] := rfl
  rw [hh, headerGet_singleton, lowerName_contentType]
  by_cases h : lowerName name = "content-type"
  · rw [if_pos h.symm, if_pos h]
  · rw [if_neg (fun hx => h hx.symm), if_neg h]

/-- C7: on every forwarding route the outbound status equals the backend
status whenever it lies in the valid HTTP range 100..=999, and falls back
to 502 otherwise; in particular any non-2xx backend status in range passes
through unchanged. -/
theorem status_passthrough (r : BackendResponse) :
    (proxyAllOk r).status = (if 100 ≤ r.status ∧ r.status ≤ 999 then r.status else 502) ∧
    (loginOk r).status = (if 100 ≤ r.status ∧ r.status ≤ 999 then r.status else 502) ∧
    (marketOk r).status = (if 100 ≤ r.status ∧ r.status ≤ 999 then r.status else 502) := by
  refine ⟨?_, ?_, ?_⟩ <;> simp [proxyAllOk, loginOk, marketOk, translateStatus_eq]

/-- C8 counterexample: a POST whose body deserializes into the email and
password string fields but which carries no content-type header (or a
non-JSON one) is refused by the `Json` extractor with no backend call,
refuting the claim's "if it deserializes, the payload is re-serialized and
forwarded". -/
theorem login_content_type_counterexample :
    loginForm "\x7b\"email\":\"a@b.com\",\"password\":\"x\"\x7d" =
      some { email := "a@b.com", password := "x" } ∧
    api_login "http://b" [] "\x7b\"email\":\"a@b.com\",\"password\":\"x\"\x7d" =
      HandlerStep.reject ∧
    api_login "http://b" [("content-type", "text/plain")]
      "\x7b\"email\":\"a@b.com\",\"password\":\"x\"\x7d" =
      HandlerStep.reject := by
  decide

/-- C8 amended: a POST to /api/login is rejected with no backend call
exactly when the request lacks a JSON content-type or the body fails to
parse and deserialize into an object with string fields email and
password; with an `application/json` content-type and a deserializable
body the payload is re-serialized and POSTed to the fixed backend path
/api/login.  For the body `\x7b"email":"a@b.com","password":"x"\x7d` the
forwarded body is unchanged, a surrogate-pair escape in a field value is
accepted and decoded, and a truncated body is rejected. -/
theorem login_validation_and_forwarding :
    (∀ (base s : String) (hs : List (String × String)),
      api_login base hs s = HandlerStep.reject ↔
        (jsonContentType hs = false ∨ loginForm s = none)) ∧
    api_login "http://b" [("content-type", "application/json")]
      "\x7b\"email\":\"a@b.com\",\"password\":\"x\"\x7d" =
      HandlerStep.callBackend
        { method := Method.POST
          url := "http://b/api/login"
          headers := [("content-type", "application/json")]
          body := some "\x7b\"email\":\"a@b.com\",\"password\":\"x\"\x7d" } ∧
    api_login "http://b" [("content-type", "application/json")]
      "\x7b\"email\":\"a\",\"password\":\"\\uD83D\\uDE00\"\x7d" =
      HandlerStep.callBackend
        { method := Method.POST
          url := "http://b/api/login"
          headers := [("content-type", "application/json")]
          body := some ("\x7b\"email\":\"a\",\"password\":\"" ++
            String.singleton (Char.ofNat 128512) ++ "\"\x7d") } ∧
    api_login "http://b" [("content-type", "application/json")]
      "\x7b\"email\":\"a@b.com\",\"password\":" =
      HandlerStep.reject := by
  refine ⟨fun base s hs => ?_, by decide, by decide, by decide⟩
  by_cases hct : jsonContentType hs = true
  · cases h : loginForm s <;> simp [api_login, hct, h]
  · have hcf : jsonContentType hs = false := by
      cases hjc : jsonContentType hs
      · rfl
      · exact absurd hjc hct
    simp [api_login, hcf]

/-- C9: a GET to /health is routed to the health handler, which answers
200 with exactly `\x7b"status":"ok"\x7d` and issues no backend request. -/
theorem health_constant_response :
    routeOf Method.GET "/health" = Route.health ∧
    healthStep = HandlerStep.respond 200 "\x7b\"status\":\"ok\"\x7d" := by
  exact ⟨by decide, rfl⟩

/-- C10: when an allow-listed header name occurs more than once in the
inbound request, only its first occurrence is forwarded on the generic
route (the outbound request holds at most one occurrence of each
allow-listed name, carrying the first inbound value), as witnessed on
duplicated cookie and authorization headers. -/
theorem duplicate_headers_first_only :
    (∀ (base : String) (m : Method) (path : String) (query : Option String)
      (hs : List (String × String)) (body name : String),
      getAll (proxyAllRequest base m path query hs body).headers name =
        if lowerName name ∈ allowedHeaderNames then (headerGet hs name).toList
        else []) ∧
    getAll (forwardHeaders
        [("cookie", "a=1"), ("cookie", "b=2"), ("authorization", "t1"),
          ("authorization", "t2")]) "cookie" = ["a=1"] ∧
    getAll (forwardHeaders
        [("cookie", "a=1"), ("cookie", "b=2"), ("authorization", "t1"),
          ("authorization", "t2")]) "authorization" = ["t1"] := by
  refine ⟨fun base m path query hs body name => ?_, by decide, by decide⟩
  simpa [proxyAllRequest] using getAll_forwardHeaders hs name

end Gateway
